import Mathlib

/-!
Shallow embedding of the apkg note/notetype merge engine
(src/rslib/src/import_export/package/apkg/import/notes.rs).

Machine integers (NoteId, NotetypeId, TimestampSecs, Usn are i64 newtypes)
are modelled as Int; the only arithmetic performed on them is the
uniquify step (+ 999), far from any overflow, so no wrap-around modelling
is needed.  HashMap insertion is modelled as consing onto an association
list, with lookup taking the most recent binding (the same observable
behaviour as overwrite-on-insert).  HashSet insertion is modelled as
consing onto a list, with membership as list membership.
-/

/-- Modelled from the spec: the external media-reference matcher
(crate text, replace_media_refs) yields spans of plain text and
embedded-filename references with their surrounding syntax; a field is
modelled as the sequence of spans the matcher yields, a reference span
keeping the text before and after the embedded filename. -/
inductive MSeg where
  | txt (s : String)
  | ref (pre : String) (name : String) (post : String)
deriving DecidableEq

/-- A note field: the span decomposition produced by the external matcher. -/
abbrev FieldText := List MSeg

def renderSeg : MSeg → String
  | MSeg.txt s => s
  | MSeg.ref pre name post => pre ++ name ++ post

/-- The literal text of a field, as stored in the collection. -/
def renderField (f : FieldText) : String :=
  String.join (f.map renderSeg)

/-- Modelled from the spec: the result of the external fallible filename
normalization (safe_normalized_file_name returns a Cow, borrowed when the
name was already normalized, owned when normalization changed it). -/
inductive FilenameCow where
  | borrowed
  | owned (s : String)
deriving DecidableEq

/-- The filename a FilenameCow denotes, given the original name. -/
def cowName (original : String) : FilenameCow → String
  | FilenameCow.borrowed => original
  | FilenameCow.owned s => s

/-- Modelled from the spec: the external collaborator capabilities the
engine consumes.  sha1 stands for the external SHA-1 digest, an arbitrary
function of the absorbed byte stream; canonify_note_tags is the target
collection tag-canonicalization capability; normalize_field is the field
normalization applied by prepare_for_update when enabled;
safe_normalized_file_name is the external fallible filename normalizer
(none when the name is unsafe); ensure_notetype_name_unique renames a
notetype display name so it is unique among the given existing names. -/
structure Caps where
  sha1 : String → Nat
  canonify_note_tags : List String → List String
  normalize_field : FieldText → FieldText
  safe_normalized_file_name : String → Option FilenameCow
  ensure_notetype_name_unique : String → List String → String

structure NoteField where
  name : String
deriving DecidableEq

structure CardTemplate where
  name : String
deriving DecidableEq

structure Notetype where
  id : Int
  name : String
  mtime_secs : Int
  usn : Int
  fields : List NoteField
  templates : List CardTemplate
deriving DecidableEq

/-- The byte stream absorbed by schema_hash: the field names in order,
then the template names in order, each fed to the hasher with no
separator or length prefix (hasher.update over the raw name bytes). -/
def schemaStream (nt : Notetype) : String :=
  String.join (nt.fields.map NoteField.name) ++
    String.join (nt.templates.map CardTemplate.name)

/-- Structural fingerprint of a notetype: the digest of the bare
concatenation of its field names and template names. -/
def schema_hash (caps : Caps) (nt : Notetype) : Nat :=
  caps.sha1 (schemaStream nt)

structure Note where
  id : Int
  guid : String
  notetype_id : Int
  mtime : Int
  usn : Int
  tags : List String
  fields : List FieldText
deriving DecidableEq

/-- Modelled from the spec: a logged-note snapshot (into_log_note) keeps
the identifier and the field texts of a note at decision time. -/
structure LogNote where
  id : Int
  fields : List String
deriving DecidableEq

def Note.into_log_note (n : Note) : LogNote :=
  { id := n.id, fields := n.fields.map renderField }

structure NoteLog where
  new : List LogNote
  updated : List LogNote
  duplicate : List LogNote
  conflicting : List LogNote
  found_notes : Nat
deriving DecidableEq

structure NoteImports where
  id_map : List (Int × Int)
  log : NoteLog
deriving DecidableEq

def emptyNoteImports : NoteImports :=
  { id_map := [],
    log := { new := [], updated := [], duplicate := [], conflicting := [],
             found_notes := 0 } }

def NoteImports.log_new (imp : NoteImports) (note : Note) (source_id : Int) :
    NoteImports :=
  { imp with
    id_map := (source_id, note.id) :: imp.id_map,
    log := { imp.log with new := imp.log.new ++ [note.into_log_note] } }

def NoteImports.log_updated (imp : NoteImports) (note : Note)
    (source_id : Int) : NoteImports :=
  { imp with
    id_map := (source_id, note.id) :: imp.id_map,
    log := { imp.log with updated := imp.log.updated ++ [note.into_log_note] } }

def NoteImports.log_duplicate (imp : NoteImports) (note : Note)
    (target_id : Int) : NoteImports :=
  -- id is for looking up the note in the target collection
  { imp with
    id_map := (note.id, target_id) :: imp.id_map,
    log := { imp.log with
             duplicate := imp.log.duplicate ++
               [({ note with id := target_id }).into_log_note] } }

def NoteImports.log_conflicting (imp : NoteImports) (note : Note) :
    NoteImports :=
  { imp with
    log := { imp.log with
             conflicting := imp.log.conflicting ++ [note.into_log_note] } }

structure NoteMeta where
  id : Int
  mtime : Int
  notetype_id : Int
deriving DecidableEq

/-- Modelled from the spec: the target collection storage exposed to the
engine, holding the persisted notes and notetypes. -/
structure Collection where
  notes : List Note
  notetypes : List Notetype
deriving DecidableEq

/-- storage.get_notetype: lookup of a notetype record by identifier. -/
def getNotetype (col : Collection) (ntid : Int) : Option Notetype :=
  col.notetypes.find? (fun nt => nt.id == ntid)

/-- storage.get_note: lookup of a note record by identifier. -/
def getNote (col : Collection) (nid : Int) : Option Note :=
  col.notes.find? (fun n => n.id == nid)

/-- The error taxonomy relevant to this engine: not-found is fatal. -/
inductive ImportError where
  | notetypeNotFound (ntid : Int)
  | noteNotFound (nid : Int)
deriving DecidableEq

structure NoteContext where
  target_col : Collection
  usn : Int
  normalize_notes : Bool
  remapped_notetypes : List (Int × Int)
  target_guids : List (String × NoteMeta)
  target_ids : List Int
  media_map : List (String × String)
  imports : NoteImports
deriving DecidableEq

/-- NoteContext.new: the GUID index and identifier set are built once,
from the entire target collection, at session start. -/
def NoteContext.new (usn : Int) (normalize_notes : Bool) (col : Collection)
    (media_map : List (String × String)) : NoteContext :=
  { target_col := col,
    usn := usn,
    normalize_notes := normalize_notes,
    remapped_notetypes := [],
    target_guids := col.notes.map
      (fun n => (n.guid, { id := n.id, mtime := n.mtime,
                           notetype_id := n.notetype_id })),
    target_ids := col.notes.map Note.id,
    media_map := media_map,
    imports := emptyNoteImports }

/-- The filename-rewriting closure passed by NoteContext.replace_media_refs
to the external matcher: normalize the referenced name; if the normalized
name has a Media Use Map entry whose resolved name differs from the
literal reference text, use the resolved name; with no entry, if
normalization itself changed the name (an owned Cow), use the normalized
name; otherwise leave the reference untouched (none). -/
def mungeName (caps : Caps) (mm : List (String × String)) (name : String) :
    Option String :=
  match caps.safe_normalized_file_name name with
  | some c =>
    match List.lookup (cowName name c) mm with
    | some entryName => if entryName ≠ name then some entryName else none
    | none =>
      match c with
      | FilenameCow.owned s => some s
      | FilenameCow.borrowed => none
  | none => none

/-- Modelled from the spec: the external matcher/rebuilder
(crate text, replace_media_refs) applies the filename callback to every
embedded reference span and rebuilds the field, leaving a span unchanged
when the callback returns none.  The source signals through an Option
whether any span changed; only the resulting field value is modelled. -/
def replaceSegs (f : String → Option String) (field : FieldText) :
    FieldText :=
  field.map (fun seg =>
    match seg with
    | MSeg.txt t => MSeg.txt t
    | MSeg.ref pre name post =>
      match f name with
      | some newName => MSeg.ref pre newName post
      | none => MSeg.ref pre name post)

/-- munge_media: rewrite the media references of every field of the note. -/
def munge_media (caps : Caps) (mm : List (String × String)) (note : Note) :
    Note :=
  { note with fields := note.fields.map (replaceSegs (mungeName caps mm)) }

/-- Modelled from the spec: Note.prepare_for_update applies field
normalization when enabled by configuration (its other duties - checksum
and sort-field maintenance - are outside the spec scope). -/
def prepare_for_update (caps : Caps) (normalize : Bool) (note : Note) :
    Note :=
  if normalize then
    { note with fields := note.fields.map caps.normalize_field }
  else
    note

/-- The uniquify_note_id while loop: while the identifier is in use, add
999.  The fuel argument only bounds the recursion for the termination
checker; uniquifyFuel_not_mem shows the loop escapes the set before the
fuel of uniquifyId can run out. -/
def uniquifyFuel (used : List Int) : Nat → Int → Int
  | 0, id => id
  | fuel + 1, id => if id ∈ used then uniquifyFuel used fuel (id + 999) else id

/-- uniquify_note_id, starting with enough fuel for the worst case (each
bump permanently passes at least one element of the set). -/
def uniquifyId (used : List Int) (id : Int) : Int :=
  uniquifyFuel used (used.length + 1) id

/-- add_note: munge media references, canonify tags, look up the notetype
(not-found is fatal), prepare for update (field normalization), stamp the
usn, resolve identifier collisions, insert into storage, record the new
identifier in the in-use set, and log under new keyed by the original
(pre-bump) identifier. -/
def add_note (caps : Caps) (ctx : NoteContext) (note : Note) :
    Except ImportError NoteContext :=
  let note := munge_media caps ctx.media_map note
  let note := { note with tags := caps.canonify_note_tags note.tags }
  match getNotetype ctx.target_col note.notetype_id with
  | none => Except.error (ImportError.notetypeNotFound note.notetype_id)
  | some _nt =>
    let note := prepare_for_update caps ctx.normalize_notes note
    let note := { note with usn := ctx.usn }
    let old_id := note.id
    let note := { note with id := uniquifyId ctx.target_ids note.id }
    Except.ok
      { ctx with
        target_col :=
          { ctx.target_col with notes := ctx.target_col.notes ++ [note] },
        target_ids := note.id :: ctx.target_ids,
        imports := ctx.imports.log_new note old_id }

/-- Modelled from the spec: update_note_inner_without_cards (a target
collection capability, called with canonify-tags and normalize flags set)
canonifies the tags, applies field normalization when enabled, and stamps
the usn before persisting the overwrite. -/
def update_note_inner_prepare (caps : Caps) (usn : Int) (normalize : Bool)
    (note : Note) : Note :=
  let note := { note with tags := caps.canonify_note_tags note.tags }
  let note := prepare_for_update caps normalize note
  { note with usn := usn }

/-- Overwrite the stored note bearing the same identifier. -/
def storeNote (col : Collection) (note : Note) : Collection :=
  { col with
    notes := col.notes.map (fun n => if n.id == note.id then note else n) }

/-- update_note: take the target identifier, munge media references, look
up the original note and the notetype (not-found is fatal), run the
update-inner pipeline, overwrite the stored note in place, and log under
updated keyed by the source identifier. -/
def update_note (caps : Caps) (ctx : NoteContext) (note : Note)
    (target_id : Int) : Except ImportError NoteContext :=
  let source_id := note.id
  let note := { note with id := target_id }
  let note := munge_media caps ctx.media_map note
  match getNote ctx.target_col note.id with
  | none => Except.error (ImportError.noteNotFound note.id)
  | some _original =>
    match getNotetype ctx.target_col note.notetype_id with
    | none => Except.error (ImportError.notetypeNotFound note.notetype_id)
    | some _nt =>
      let note := update_note_inner_prepare caps ctx.usn ctx.normalize_notes
        note
      Except.ok
        { ctx with
          target_col := storeNote ctx.target_col note,
          imports := ctx.imports.log_updated note source_id }

/-- The per-note body of the import_notes loop: the merge decision in its
exact priority. -/
def processNote (caps : Caps) (ctx : NoteContext) (note : Note) :
    Except ImportError NoteContext :=
  let remapped_notetype_id := List.lookup note.notetype_id
    ctx.remapped_notetypes
  match List.lookup note.guid ctx.target_guids with
  | some existing_note =>
    if existing_note.mtime < note.mtime then
      if existing_note.notetype_id ≠ note.notetype_id ∨
          remapped_notetype_id.isSome then
        -- existing GUID with different notetype id, or changed schema
        Except.ok { ctx with imports := ctx.imports.log_conflicting note }
      else
        update_note caps ctx note existing_note.id
    else
      Except.ok
        { ctx with imports := ctx.imports.log_duplicate note existing_note.id }
  | none =>
    match remapped_notetype_id with
    | some remapped_ntid =>
      -- notetypes diverged, but this is a new note: import it under the
      -- remapped notetype id
      add_note caps ctx { note with notetype_id := remapped_ntid }
    | none => add_note caps ctx note

/-- import_notes: record the found-notes count, then fold the merge
decision over the incoming notes in input order, aborting on the first
error.  (Progress reporting is an external capability and not modelled.) -/
def import_notes (caps : Caps) (ctx : NoteContext) (notes : List Note) :
    Except ImportError NoteContext :=
  let ctx :=
    { ctx with
      imports :=
        { ctx.imports with
          log := { ctx.imports.log with found_notes := notes.length } } }
  notes.foldlM (fun c n => processNote caps c n) ctx

/-- Modelled from the spec: add_notetype_inner assigns a freshly allocated
identifier; freshness is modelled as one past the maximum identifier in
use (freshNotetypeId_not_mem). -/
def freshNotetypeId (col : Collection) : Int :=
  (col.notetypes.map Notetype.id).foldr max 0 + 1

/-- add_notetype (identifier absent from the target): keep the incoming
identifier, make the display name unique, stamp the usn, insert. -/
def add_notetype (caps : Caps) (ctx : NoteContext) (nt : Notetype) :
    NoteContext :=
  let nt :=
    { nt with
      name := caps.ensure_notetype_name_unique nt.name
        (ctx.target_col.notetypes.map Notetype.name),
      usn := ctx.usn }
  { ctx with
    target_col :=
      { ctx.target_col with notetypes := ctx.target_col.notetypes ++ [nt] } }

/-- update_notetype: overwrite the existing record in place (same
identifier), stamping the usn. -/
def update_notetype (ctx : NoteContext) (nt : Notetype) : NoteContext :=
  let nt := { nt with usn := ctx.usn }
  { ctx with
    target_col :=
      { ctx.target_col with
        notetypes := ctx.target_col.notetypes.map
          (fun o => if o.id == nt.id then nt else o) } }

/-- add_notetype_with_remapped_id: discard the incoming identifier, insert
under a freshly allocated one, and record old to new in the Identity
Remapping Table. -/
def add_notetype_with_remapped_id (ctx : NoteContext) (nt : Notetype) :
    NoteContext :=
  let old_id := nt.id
  let new_id := freshNotetypeId ctx.target_col
  let nt := { nt with id := new_id, usn := ctx.usn }
  { ctx with
    target_col :=
      { ctx.target_col with notetypes := ctx.target_col.notetypes ++ [nt] },
    remapped_notetypes := (old_id, new_id) :: ctx.remapped_notetypes }

/-- merge_or_remap_notetype: equal fingerprints merge (the strictly newer
incoming record overwrites in place, otherwise nothing happens); diverged
fingerprints re-create the notetype under a new identity. -/
def merge_or_remap_notetype (caps : Caps) (ctx : NoteContext)
    (incoming existing : Notetype) : NoteContext :=
  if schema_hash caps incoming = schema_hash caps existing then
    if existing.mtime_secs < incoming.mtime_secs then
      update_notetype ctx incoming
    else
      ctx
  else
    add_notetype_with_remapped_id ctx incoming

/-- import_notetypes: reconcile each incoming notetype against the target
by identifier, in input order. -/
def import_notetypes (caps : Caps) (ctx : NoteContext)
    (notetypes : List Notetype) : NoteContext :=
  notetypes.foldl
    (fun c nt =>
      match getNotetype c.target_col nt.id with
      | some existing => merge_or_remap_notetype caps c nt existing
      | none => add_notetype caps c nt)
    ctx

/-! Specification predicates for the claims, phrased over the embedding. -/

/-- Conflicting outcome: the note is logged under conflicting and nothing
else in the session state changes (no storage mutation, no identity-map
entry). -/
def conflictingSpec (caps : Caps) (ctx : NoteContext) (note : Note) : Prop :=
  ∃ ctx', processNote caps ctx note = Except.ok ctx' ∧
    ctx'.target_col = ctx.target_col ∧
    ctx'.target_ids = ctx.target_ids ∧
    ctx'.imports.id_map = ctx.imports.id_map ∧
    ctx'.imports.log.conflicting =
      ctx.imports.log.conflicting ++ [note.into_log_note] ∧
    ctx'.imports.log.new = ctx.imports.log.new ∧
    ctx'.imports.log.updated = ctx.imports.log.updated ∧
    ctx'.imports.log.duplicate = ctx.imports.log.duplicate

/-- Duplicate outcome: no mutation of the target collection, an
identity-map entry from the source identifier to the existing target
identifier, and a logged snapshot whose identifier field is overwritten
to the target identifier. -/
def duplicateSpec (caps : Caps) (ctx : NoteContext) (note : Note)
    (target_id : Int) : Prop :=
  ∃ ctx', processNote caps ctx note = Except.ok ctx' ∧
    ctx'.target_col = ctx.target_col ∧
    ctx'.target_ids = ctx.target_ids ∧
    ctx'.imports.id_map = (note.id, target_id) :: ctx.imports.id_map ∧
    ctx'.imports.log.duplicate = ctx.imports.log.duplicate ++
      [{ id := target_id, fields := note.fields.map renderField }] ∧
    ctx'.imports.log.new = ctx.imports.log.new ∧
    ctx'.imports.log.updated = ctx.imports.log.updated ∧
    ctx'.imports.log.conflicting = ctx.imports.log.conflicting

/-- The note content actually persisted on either write path: media
references rewritten, tags canonified, fields normalized when enabled. -/
def pipelineSpec (caps : Caps) (ctx : NoteContext) (note : Note)
    (stored : Note) : Prop :=
  stored.tags = caps.canonify_note_tags note.tags ∧
  stored.fields =
    (prepare_for_update caps ctx.normalize_notes
      (munge_media caps ctx.media_map note)).fields ∧
  stored.usn = ctx.usn

/-- Updated outcome (amended): the stored note keeps the target
identifier, its content is the incoming content as transformed by the
pre-write pipeline, the outcome is logged under updated, and the
identity map maps the source identifier to the target identifier. -/
def updatedSpec (caps : Caps) (ctx : NoteContext) (note : Note)
    (target_id : Int) : Prop :=
  ∃ ctx', processNote caps ctx note = Except.ok ctx' ∧
    ∃ stored, getNote ctx'.target_col target_id = some stored ∧
      stored.id = target_id ∧
      pipelineSpec caps ctx note stored ∧
      ctx'.imports.id_map = (note.id, target_id) :: ctx.imports.id_map ∧
      ctx'.imports.log.updated =
        ctx.imports.log.updated ++ [stored.into_log_note] ∧
      ctx'.imports.log.new = ctx.imports.log.new ∧
      ctx'.imports.log.duplicate = ctx.imports.log.duplicate ∧
      ctx'.imports.log.conflicting = ctx.imports.log.conflicting

/-- Amended accumulator invariant: every outcome appends exactly one
entry to exactly one of the four outcome sequences; the new, updated and
duplicate outcomes additionally insert exactly one identity-map entry
mapping the source identifier to the identifier the note now has, or
will have, in the target: for new, the identifier of the freshly stored
note; for updated, the matched target identifier from the GUID index,
under which the overwritten note is stored; for duplicate, the matched
target identifier from the GUID index.  The conflicting outcome inserts
no identity-map entry. -/
def outcomeSpec (ctx ctx' : NoteContext) (note : Note) : Prop :=
  (∃ e, ctx'.imports.log.new = ctx.imports.log.new ++ [e] ∧
    ctx'.imports.log.updated = ctx.imports.log.updated ∧
    ctx'.imports.log.duplicate = ctx.imports.log.duplicate ∧
    ctx'.imports.log.conflicting = ctx.imports.log.conflicting ∧
    ∃ stored, ctx'.target_col.notes = ctx.target_col.notes ++ [stored] ∧
      ctx'.imports.id_map = (note.id, stored.id) :: ctx.imports.id_map) ∨
  (∃ e, ctx'.imports.log.updated = ctx.imports.log.updated ++ [e] ∧
    ctx'.imports.log.new = ctx.imports.log.new ∧
    ctx'.imports.log.duplicate = ctx.imports.log.duplicate ∧
    ctx'.imports.log.conflicting = ctx.imports.log.conflicting ∧
    ∃ existing, List.lookup note.guid ctx.target_guids = some existing ∧
      ctx'.imports.id_map = (note.id, existing.id) :: ctx.imports.id_map ∧
      ∃ stored, getNote ctx'.target_col existing.id = some stored ∧
        stored.id = existing.id) ∨
  (∃ e, ctx'.imports.log.duplicate = ctx.imports.log.duplicate ++ [e] ∧
    ctx'.imports.log.new = ctx.imports.log.new ∧
    ctx'.imports.log.updated = ctx.imports.log.updated ∧
    ctx'.imports.log.conflicting = ctx.imports.log.conflicting ∧
    ∃ existing, List.lookup note.guid ctx.target_guids = some existing ∧
      ctx'.imports.id_map = (note.id, existing.id) :: ctx.imports.id_map) ∨
  (∃ e, ctx'.imports.log.conflicting = ctx.imports.log.conflicting ++ [e] ∧
    ctx'.imports.log.new = ctx.imports.log.new ∧
    ctx'.imports.log.updated = ctx.imports.log.updated ∧
    ctx'.imports.log.duplicate = ctx.imports.log.duplicate ∧
    ctx'.imports.id_map = ctx.imports.id_map)

/-- Identifier-collision resolution: the stored identifier escaped the
in-use set by whole 999-steps from the source identifier, every skipped
value was in use, and the identity map keys on the original identifier. -/
def uniquifySpec (ctx ctx' : NoteContext) (note : Note) : Prop :=
  uniquifyId ctx.target_ids note.id ∉ ctx.target_ids ∧
  (∃ k : Nat, 0 < k ∧
    uniquifyId ctx.target_ids note.id = note.id + 999 * k ∧
    ∀ j : Nat, j < k → note.id + 999 * j ∈ ctx.target_ids) ∧
  ctx'.imports.id_map =
    (note.id, uniquifyId ctx.target_ids note.id) :: ctx.imports.id_map ∧
  ∃ stored, ctx'.target_col.notes = ctx.target_col.notes ++ [stored] ∧
    stored.id = uniquifyId ctx.target_ids note.id

/-- A media reference span whose filename resolves through the Media Use
Map to a different name is rewritten to the resolved name, and the
rendered field text shows the resolved name in place. -/
def mediaRefSpec (caps : Caps) (mm : List (String × String))
    (pre name post resolved : String) : Prop :=
  replaceSegs (mungeName caps mm) [MSeg.ref pre name post] =
    [MSeg.ref pre resolved post] ∧
  renderField (replaceSegs (mungeName caps mm) [MSeg.ref pre name post]) =
    pre ++ resolved ++ post

/-- Notetype schema-drift outcome: a fresh identifier is allocated and
recorded in the Identity Remapping Table, the notetype is inserted under
it with its structure intact, and any subsequently imported new note
referencing the old identifier is stored under the new one. -/
def remapSpec (caps : Caps) (ctx : NoteContext) (nt existing : Notetype) :
    Prop :=
  List.lookup nt.id
      (merge_or_remap_notetype caps ctx nt existing).remapped_notetypes =
    some (freshNotetypeId ctx.target_col) ∧
  freshNotetypeId ctx.target_col ∉
    ctx.target_col.notetypes.map Notetype.id ∧
  freshNotetypeId ctx.target_col ≠ nt.id ∧
  (∃ nt',
    (merge_or_remap_notetype caps ctx nt existing).target_col.notetypes =
      ctx.target_col.notetypes ++ [nt'] ∧
    nt'.id = freshNotetypeId ctx.target_col ∧
    nt'.fields = nt.fields ∧ nt'.templates = nt.templates) ∧
  ∀ note ctx'',
    List.lookup note.guid
        (merge_or_remap_notetype caps ctx nt existing).target_guids =
      none →
    note.notetype_id = nt.id →
    processNote caps (merge_or_remap_notetype caps ctx nt existing) note =
      Except.ok ctx'' →
    ∃ stored,
      ctx''.target_col.notes =
        (merge_or_remap_notetype caps ctx nt existing).target_col.notes ++
          [stored] ∧
      stored.notetype_id = freshNotetypeId ctx.target_col

/-! Concrete fixtures used by the witnesses and counterexamples. -/

/-- Concrete capabilities: digest is the stream length, tag
canonicalization and field normalization are the identity, every
filename is already normalized, names are already unique. -/
def capsA : Caps :=
  { sha1 := String.length,
    canonify_note_tags := fun ts => ts,
    normalize_field := fun f => f,
    safe_normalized_file_name := fun _ => some FilenameCow.borrowed,
    ensure_notetype_name_unique := fun n _ => n }

def mkNote (i : Int) (g : String) (nt : Int) (mt : Int)
    (fs : List FieldText) : Note :=
  { id := i, guid := g, notetype_id := nt, mtime := mt, usn := 0,
    tags := [], fields := fs }

def ntBasic : Notetype :=
  { id := 5, name := "basic", mtime_secs := 0, usn := 0, fields := [],
    templates := [] }

/-- A target collection holding one note (id 1, guid g, notetype 5,
mtime 0) and one notetype (id 5). -/
def colA : Collection :=
  { notes := [mkNote 1 "g" 5 0 [[MSeg.txt "old"]]], notetypes := [ntBasic] }

/-- A session over colA with a media map resolving foo.jpg to bar.jpg. -/
def ctxA : NoteContext :=
  NoteContext.new 1 false colA [("foo.jpg", "bar.jpg")]

/-- Incoming note on the update path carrying a media reference that the
media map remaps. -/
def noteUpd : Note :=
  mkNote 7 "g" 5 3 [[MSeg.ref "<img src=\x27" "foo.jpg" "\x27>"]]

/-- Incoming note on the conflicting path (newer, different notetype). -/
def noteConf : Note := mkNote 7 "g" 6 3 [[MSeg.txt "x"]]

/-- Incoming note on the duplicate path (not newer). -/
def noteDup : Note := mkNote 7 "g" 5 0 [[MSeg.txt "x"]]

/-- Incoming new note whose identifier collides with the target. -/
def noteColl : Note := mkNote 1 "h" 5 3 [[MSeg.txt "y"]]

/-- Incoming notetype sharing identifier 5 but with a diverged schema. -/
def ntDiverged : Notetype :=
  { id := 5, name := "basic2", mtime_secs := 9, usn := 0,
    fields := [{ name := "a" }, { name := "b" }], templates := [] }

/-- A target collection whose stored note references a notetype that is
missing from storage (an inconsistent target, for the fatal-error
claim). -/
def colMissing : Collection :=
  { notes := [mkNote 1 "g" 7 0 [[MSeg.txt "old"]]], notetypes := [] }

def ctxMissing : NoteContext := NoteContext.new 1 false colMissing []

/-- New note referencing an absent notetype. -/
def noteInsMissing : Note := mkNote 4 "x" 8 5 []

/-- Update-path note whose (matching) notetype is absent from storage. -/
def noteUpdMissing : Note := mkNote 3 "g" 7 5 []

/-! Helper lemmas. -/

theorem munge_media_id (caps : Caps) (mm : List (String × String))
    (n : Note) : (munge_media caps mm n).id = n.id := rfl

theorem munge_media_tags (caps : Caps) (mm : List (String × String))
    (n : Note) : (munge_media caps mm n).tags = n.tags := rfl

theorem munge_media_notetype_id (caps : Caps) (mm : List (String × String))
    (n : Note) : (munge_media caps mm n).notetype_id = n.notetype_id := rfl

theorem munge_media_fields (caps : Caps) (mm : List (String × String))
    (n : Note) :
    (munge_media caps mm n).fields =
      n.fields.map (replaceSegs (mungeName caps mm)) := rfl

theorem prepare_for_update_id (caps : Caps) (b : Bool) (n : Note) :
    (prepare_for_update caps b n).id = n.id := by
  unfold prepare_for_update; split <;> rfl

theorem prepare_for_update_tags (caps : Caps) (b : Bool) (n : Note) :
    (prepare_for_update caps b n).tags = n.tags := by
  unfold prepare_for_update; split <;> rfl

theorem prepare_for_update_notetype_id (caps : Caps) (b : Bool) (n : Note) :
    (prepare_for_update caps b n).notetype_id = n.notetype_id := by
  unfold prepare_for_update; split <;> rfl

theorem prepare_for_update_fields (caps : Caps) (b : Bool) (n : Note) :
    (prepare_for_update caps b n).fields =
      if b then n.fields.map caps.normalize_field else n.fields := by
  unfold prepare_for_update; split <;> simp_all

theorem update_note_inner_prepare_id (caps : Caps) (usn : Int) (b : Bool)
    (n : Note) : (update_note_inner_prepare caps usn b n).id = n.id := by
  unfold update_note_inner_prepare
  simp [prepare_for_update_id]

theorem update_note_inner_prepare_tags (caps : Caps) (usn : Int) (b : Bool)
    (n : Note) :
    (update_note_inner_prepare caps usn b n).tags =
      caps.canonify_note_tags n.tags := by
  unfold update_note_inner_prepare
  simp [prepare_for_update_tags]

theorem update_note_inner_prepare_fields (caps : Caps) (usn : Int)
    (b : Bool) (n : Note) :
    (update_note_inner_prepare caps usn b n).fields =
      (prepare_for_update caps b n).fields := by
  unfold update_note_inner_prepare
  simp [prepare_for_update_fields]

theorem update_note_inner_prepare_usn (caps : Caps) (usn : Int) (b : Bool)
    (n : Note) : (update_note_inner_prepare caps usn b n).usn = usn := rfl

/-- Filtering with a pointwise-stronger predicate keeps no more
elements. -/
theorem length_filter_le_of_imp {α : Type} (p q : α → Bool)
    (h : ∀ x, p x = true → q x = true) (l : List α) :
    (l.filter p).length ≤ (l.filter q).length := by
  induction l with
  | nil => simp
  | cons a t ih =>
    simp only [List.filter_cons]
    by_cases hp : p a = true
    · simp [hp, h a hp]; exact ih
    · simp only [hp]
      by_cases hq : q a = true
      · simp only [hq, if_true, List.length_cons]
        exact Nat.le_succ_of_le ih
      · simp only [hq, if_false]
        exact ih

/-- Bumping the candidate identifier past a member of the set strictly
shrinks the set of members it has not yet passed. -/
theorem filter_bump_lt (used : List Int) (id : Int) (h : id ∈ used) :
    (used.filter (fun x => decide (id + 999 ≤ x))).length <
      (used.filter (fun x => decide (id ≤ x))).length := by
  induction used with
  | nil => cases h
  | cons a t ih =>
    have himp : ∀ x : Int, decide (id + 999 ≤ x) = true →
        decide (id ≤ x) = true := by
      intro x hx
      simp only [decide_eq_true_eq] at hx ⊢
      omega
    rcases List.mem_cons.mp h with heq | hmem
    · have h1 : decide (id + 999 ≤ a) = false := by
        rw [decide_eq_false_iff_not]; omega
      have h2 : decide ((id : Int) ≤ a) = true := by
        rw [decide_eq_true_eq]; omega
      have hmono := length_filter_le_of_imp _ _ himp t
      simp only [List.filter_cons, h1, h2]
      simp only [Bool.false_eq_true, if_false, if_true, List.length_cons]
      omega
    · have hrec := ih hmem
      simp only [List.filter_cons]
      cases h1 : decide (id + 999 ≤ a) with
      | true =>
        rw [himp a h1]
        simp only [if_true, List.length_cons]
        omega
      | false =>
        simp only [Bool.false_eq_true, if_false]
        cases h2 : decide ((id : Int) ≤ a) with
        | true =>
          simp only [if_true, List.length_cons]
          omega
        | false =>
          simp only [Bool.false_eq_true, if_false]
          exact hrec

/-- With more fuel than members not yet passed, the uniquify loop stops
on an identifier outside the in-use set. -/
theorem uniquifyFuel_not_mem (used : List Int) :
    ∀ fuel id, (used.filter (fun x => decide (id ≤ x))).length < fuel →
      uniquifyFuel used fuel id ∉ used := by
  intro fuel
  induction fuel with
  | zero => intro id h; exact absurd h (Nat.not_lt_zero _)
  | succ k ih =>
    intro id h
    unfold uniquifyFuel
    by_cases hm : id ∈ used
    · rw [if_pos hm]
      apply ih
      have := filter_bump_lt used id hm
      omega
    · rw [if_neg hm]
      exact hm

/-- The identifier chosen by uniquify_note_id is not among the prior
target identifiers. -/
theorem uniquifyId_not_mem (used : List Int) (id : Int) :
    uniquifyId used id ∉ used := by
  apply uniquifyFuel_not_mem
  have : (used.filter (fun x => decide (id ≤ x))).length ≤ used.length :=
    List.length_filter_le _ _
  omega

/-- The uniquify loop only ever adds whole steps of 999, and every value
it skipped was in use. -/
theorem uniquifyFuel_steps (used : List Int) :
    ∀ fuel id, ∃ k : Nat,
      uniquifyFuel used fuel id = id + 999 * k ∧
      ∀ j : Nat, j < k → id + 999 * j ∈ used := by
  intro fuel
  induction fuel with
  | zero =>
    intro id
    exact ⟨0, by simp [uniquifyFuel], by omega⟩
  | succ f ih =>
    intro id
    unfold uniquifyFuel
    by_cases hm : id ∈ used
    · simp only [hm, if_true]
      obtain ⟨k, hk, hskip⟩ := ih (id + 999)
      refine ⟨k + 1, by push_cast; omega, ?_⟩
      intro j hj
      cases j with
      | zero => simpa using hm
      | succ j' =>
        have := hskip j' (by omega)
        have harith : id + 999 * ((j' : Int) + 1) = id + 999 + 999 * j' := by
          ring
        push_cast
        rw [harith]
        push_cast at this
        exact this
    · simp only [hm, if_false]
      exact ⟨0, by simp, by omega⟩

/-- uniquifyId adds a positive number of whole 999-steps when the
identifier was in use, and every skipped value was in use. -/
theorem uniquifyId_steps (used : List Int) (id : Int) (hmem : id ∈ used) :
    ∃ k : Nat, 0 < k ∧ uniquifyId used id = id + 999 * k ∧
      ∀ j : Nat, j < k → id + 999 * j ∈ used := by
  obtain ⟨k, hk, hskip⟩ := uniquifyFuel_steps used (used.length + 1) id
  refine ⟨k, ?_, hk, hskip⟩
  by_contra hz
  have hk0 : k = 0 := by omega
  subst hk0
  have := uniquifyId_not_mem used id
  rw [uniquifyId, hk] at this
  simp at this
  exact this hmem

/-- Every member is bounded by the foldr maximum seeded at 0. -/
theorem le_foldr_max (l : List Int) (x : Int) (h : x ∈ l) :
    x ≤ l.foldr max 0 := by
  induction l with
  | nil => cases h
  | cons a t ih =>
    rcases List.mem_cons.mp h with rfl | hmem
    · exact le_max_left _ _
    · exact le_trans (ih hmem) (le_max_right _ _)

/-- The freshly allocated notetype identifier is not in use. -/
theorem freshNotetypeId_not_mem (col : Collection) :
    freshNotetypeId col ∉ col.notetypes.map Notetype.id := by
  intro hmem
  have := le_foldr_max _ _ hmem
  unfold freshNotetypeId at this
  omega

/-- Replacing every same-identifier note leaves the overwriting note
retrievable under its identifier, when something bore it before. -/
theorem find_store (note : Note) (l : List Note)
    (h : (l.find? (fun n => n.id == note.id)).isSome) :
    (l.map (fun n => if n.id == note.id then note else n)).find?
      (fun n => n.id == note.id) = some note := by
  induction l with
  | nil => simp at h
  | cons a t ih =>
    simp only [List.map_cons]
    by_cases ha : (a.id == note.id) = true
    · rw [if_pos ha]
      exact List.find?_cons_of_pos _ (by simp)
    · rw [if_neg ha]
      rw [List.find?_cons_of_neg _ (by simp_all)]
      apply ih
      have ha' : (a.id == note.id) = false := by simp_all
      simp only [List.find?_cons, ha'] at h
      exact h

/-- Overwriting a stored note leaves it retrievable under its
identifier. -/
theorem getNote_storeNote (col : Collection) (note : Note)
    (h : (getNote col note.id).isSome) :
    getNote (storeNote col note) note.id = some note := by
  unfold getNote storeNote at *
  exact find_store note col.notes h

/-! Claim theorems. -/

/-- C1: for every incoming note whose GUID matches an existing target
note, if the incoming note is strictly newer and the existing notetype
identifier differs from the incoming one, or the incoming notetype
identifier appears in the Identity Remapping Table, then the note is
classified conflicting, logged under the conflicting sequence, and the
target collection is not mutated (no identity-map entry is added
either). -/
theorem conflicting_no_mutation (caps : Caps) (ctx : NoteContext)
    (note : Note) (existing : NoteMeta)
    (hguid : List.lookup note.guid ctx.target_guids = some existing)
    (hnewer : existing.mtime < note.mtime)
    (hdiv : existing.notetype_id ≠ note.notetype_id ∨
      (List.lookup note.notetype_id ctx.remapped_notetypes).isSome = true) :
    conflictingSpec caps ctx note := by
  refine ⟨{ ctx with imports := ctx.imports.log_conflicting note }, ?_,
    rfl, rfl, rfl, rfl, rfl, rfl, rfl⟩
  unfold processNote
  simp only [hguid]
  rw [if_pos hnewer, if_pos hdiv]

/-- Witness: a concrete conflicting import (newer incoming note with a
different notetype identifier) satisfying conflicting_no_mutation. -/
theorem conflicting_no_mutation_witness : conflictingSpec capsA ctxA noteConf :=
  conflicting_no_mutation capsA ctxA noteConf
    { id := 1, mtime := 0, notetype_id := 5 }
    (by decide) (by decide) (Or.inl (by decide))

/-- C2: for every incoming note whose GUID matches an existing target
note that is not older, the note is classified duplicate, the target is
not mutated, the identity map maps the source identifier to the existing
target identifier, and the logged snapshot carries the target
identifier. -/
theorem duplicate_maps_to_target (caps : Caps) (ctx : NoteContext)
    (note : Note) (existing : NoteMeta)
    (hguid : List.lookup note.guid ctx.target_guids = some existing)
    (hold : ¬ existing.mtime < note.mtime) :
    duplicateSpec caps ctx note existing.id := by
  refine ⟨{ ctx with imports := ctx.imports.log_duplicate note existing.id },
    ?_, rfl, rfl, rfl, rfl, rfl, rfl, rfl⟩
  unfold processNote
  simp only [hguid]
  rw [if_neg hold]

/-- Witness: a concrete duplicate import (equal modification times)
satisfying duplicate_maps_to_target. -/
theorem duplicate_maps_to_target_witness : duplicateSpec capsA ctxA noteDup 1 :=
  duplicate_maps_to_target capsA ctxA noteDup
    { id := 1, mtime := 0, notetype_id := 5 }
    (by decide) (by decide)

/-- C3 (amended): for every incoming note whose GUID matches an existing
target note with a strictly older modification time, an identical
notetype identifier, and a notetype identifier absent from the Identity
Remapping Table, the existing note is overwritten in place: the stored
note keeps the target identifier, its content is the incoming content as
transformed by the pre-write pipeline (media-reference rewriting, tag
canonicalization, and field normalization when enabled), the note is
classified updated, and the identity map maps the source identifier to
the target identifier. -/
theorem updated_overwrites_in_place (caps : Caps) (ctx : NoteContext)
    (note : Note) (existing : NoteMeta) (orig : Note) (nt : Notetype)
    (hguid : List.lookup note.guid ctx.target_guids = some existing)
    (hnewer : existing.mtime < note.mtime)
    (hsame : existing.notetype_id = note.notetype_id)
    (hnomap : List.lookup note.notetype_id ctx.remapped_notetypes = none)
    (horig : getNote ctx.target_col existing.id = some orig)
    (hnt : getNotetype ctx.target_col note.notetype_id = some nt) :
    updatedSpec caps ctx note existing.id := by
  have hdiv : ¬ (existing.notetype_id ≠ note.notetype_id ∨
      (List.lookup note.notetype_id ctx.remapped_notetypes).isSome = true) := by
    rw [hnomap]
    simp [hsame]
  have hproc : processNote caps ctx note =
      update_note caps ctx note existing.id := by
    unfold processNote
    simp only [hguid]
    rw [if_pos hnewer, if_neg hdiv]
  have hmid : (munge_media caps ctx.media_map
      { note with id := existing.id }).id = existing.id := rfl
  have hupd : update_note caps ctx note existing.id = Except.ok
      { ctx with
        target_col := storeNote ctx.target_col
          (update_note_inner_prepare caps ctx.usn ctx.normalize_notes
            (munge_media caps ctx.media_map { note with id := existing.id })),
        imports := ctx.imports.log_updated
          (update_note_inner_prepare caps ctx.usn ctx.normalize_notes
            (munge_media caps ctx.media_map { note with id := existing.id }))
          note.id } := by
    have hmnt : (munge_media caps ctx.media_map
        { note with id := existing.id }).notetype_id = note.notetype_id := rfl
    simp only [update_note, hmid, hmnt, horig, hnt]
  refine ⟨_, hproc.trans hupd, ?_⟩
  set processed := update_note_inner_prepare caps ctx.usn ctx.normalize_notes
    (munge_media caps ctx.media_map { note with id := existing.id }) with hpdef
  have hpid : processed.id = existing.id := by
    rw [hpdef, update_note_inner_prepare_id, hmid]
  refine ⟨processed, ?_, hpid, ⟨?_, ?_, ?_⟩, ?_, rfl, rfl, rfl, rfl⟩
  · rw [← hpid]
    exact getNote_storeNote ctx.target_col processed
      (by rw [hpid, horig]; rfl)
  · rw [hpdef, update_note_inner_prepare_tags, munge_media_tags]
  · rw [hpdef, update_note_inner_prepare_fields, prepare_for_update_fields,
      prepare_for_update_fields, munge_media_fields, munge_media_fields]
  · rw [hpdef]; rfl
  · simp only [NoteImports.log_updated]
    rw [hpid]

/-- Witness: a concrete in-place update (newer incoming note, same
notetype, no remapping) satisfying updated_overwrites_in_place. -/
theorem updated_overwrites_in_place_witness : updatedSpec capsA ctxA noteUpd 1 :=
  updated_overwrites_in_place capsA ctxA noteUpd
    { id := 1, mtime := 0, notetype_id := 5 }
    (mkNote 1 "g" 5 0 [[MSeg.txt "old"]]) ntBasic
    (by decide) (by decide) (by decide) (by decide) (by decide) (by decide)

/-- C3 counterexample: a concrete import meeting all the claim
conditions (GUID match, strictly older target, identical notetype
identifier, no remapping) in which the stored fields do NOT equal the
incoming fields: the media map rewrites the embedded reference, so the
stored field text differs from the incoming field text. -/
theorem updated_fields_counterexample :
    List.lookup noteUpd.guid ctxA.target_guids =
      some { id := 1, mtime := 0, notetype_id := 5 } ∧
    (0 : Int) < noteUpd.mtime ∧
    (5 : Int) = noteUpd.notetype_id ∧
    List.lookup noteUpd.notetype_id ctxA.remapped_notetypes = none ∧
    ∃ ctx', processNote capsA ctxA noteUpd = Except.ok ctx' ∧
      ∃ stored, getNote ctx'.target_col 1 = some stored ∧
        stored.id = 1 ∧ stored.fields ≠ noteUpd.fields := by
  refine ⟨by decide, by decide, by decide, by decide, _, rfl, _, rfl,
    by decide, by decide⟩

/-- C4 (amended): every successfully processed note appends exactly one
entry to exactly one of the four outcome sequences; the new, updated and
duplicate outcomes insert exactly one identity-map entry mapping the
source identifier to the identifier the note now has, or will have, in
the target collection (the stored identifier for new, the matched target
identifier for updated and duplicate), while the conflicting outcome
inserts none. -/
theorem outcome_log_and_id_map (caps : Caps) (ctx : NoteContext)
    (note : Note) (ctx' : NoteContext)
    (hok : processNote caps ctx note = Except.ok ctx') :
    outcomeSpec ctx ctx' note := by
  unfold outcomeSpec
  simp only [processNote] at hok
  split at hok
  case h_1 existing heq =>
    split at hok
    · split at hok
      · -- conflicting
        injection hok with h
        subst h
        exact Or.inr (Or.inr (Or.inr ⟨note.into_log_note, rfl, rfl, rfl, rfl,
          rfl⟩))
      · -- update path
        simp only [update_note] at hok
        split at hok
        · exact absurd hok (by simp)
        · rename_i origNote heqnote
          split at hok
          · exact absurd hok (by simp)
          · injection hok with h
            subst h
            have hpid : (update_note_inner_prepare caps ctx.usn
                ctx.normalize_notes (munge_media caps ctx.media_map
                  { note with id := existing.id })).id = existing.id := by
              simp only [update_note_inner_prepare_id, munge_media_id]
            refine Or.inr (Or.inl ⟨_, rfl, rfl, rfl, rfl, existing, heq,
              ?_, ?_⟩)
            · simp only [NoteImports.log_updated]
              rw [hpid]
            · have hside : (getNote ctx.target_col
                  (update_note_inner_prepare caps ctx.usn ctx.normalize_notes
                    (munge_media caps ctx.media_map
                      { note with id := existing.id })).id).isSome := by
                rw [hpid]
                have hmid : (munge_media caps ctx.media_map
                    { note with id := existing.id }).id = existing.id := rfl
                rw [hmid] at heqnote
                rw [heqnote]
                rfl
              have hs := getNote_storeNote ctx.target_col _ hside
              rw [hpid] at hs
              exact ⟨_, hs, hpid⟩
    · -- duplicate
      injection hok with h
      subst h
      exact Or.inr (Or.inr (Or.inl ⟨_, rfl, rfl, rfl, rfl, existing, heq,
        rfl⟩))
  case h_2 heq =>
    split at hok
    case h_1 remapped_ntid hrem =>
      simp only [add_note] at hok
      split at hok
      · exact absurd hok (by simp)
      · injection hok with h
        subst h
        refine Or.inl ⟨_, rfl, rfl, rfl, rfl, _, rfl, ?_⟩
        simp only [NoteImports.log_new, prepare_for_update_id,
          munge_media_id]
    case h_2 hrem =>
      simp only [add_note] at hok
      split at hok
      · exact absurd hok (by simp)
      · injection hok with h
        subst h
        refine Or.inl ⟨_, rfl, rfl, rfl, rfl, _, rfl, ?_⟩
        simp only [NoteImports.log_new, prepare_for_update_id,
          munge_media_id]

/-- C4 counterexample: a concrete conflicting import appends an entry to
the conflicting sequence but inserts NO entry into the identity map, so
not every outcome inserts exactly one identity-map entry. -/
theorem outcome_id_map_counterexample :
    ctxA.imports.id_map = [] ∧
    ∃ ctx', processNote capsA ctxA noteConf = Except.ok ctx' ∧
      ctx'.imports.log.conflicting.length = 1 ∧
      ctx'.imports.id_map = [] := by
  exact ⟨rfl, _, rfl, rfl, rfl⟩

/-- Witness: outcome_log_and_id_map at a concrete duplicate import. -/
theorem outcome_log_and_id_map_witness :
    ∃ ctx', processNote capsA ctxA noteDup = Except.ok ctx' ∧
      outcomeSpec ctxA ctx' noteDup :=
  ⟨_, rfl, outcome_log_and_id_map capsA ctxA noteDup _ rfl⟩

/-- C5: for every new note (GUID absent from the target) whose
identifier is already in use, the stored identifier escapes the prior
in-use set by a positive number of whole 999-steps (every skipped value
having been in use), while the identity map keys on the original
pre-bump identifier. -/
theorem new_note_id_uniquified (caps : Caps) (ctx : NoteContext)
    (note : Note) (ctx' : NoteContext)
    (hguid : List.lookup note.guid ctx.target_guids = none)
    (hmem : note.id ∈ ctx.target_ids)
    (hok : processNote caps ctx note = Except.ok ctx') :
    uniquifySpec ctx ctx' note := by
  have hnm := uniquifyId_not_mem ctx.target_ids note.id
  have hst := uniquifyId_steps ctx.target_ids note.id hmem
  refine ⟨hnm, hst, ?_, ?_⟩
  · simp only [processNote, hguid] at hok
    split at hok <;>
    · simp only [add_note] at hok
      split at hok
      · exact absurd hok (by simp)
      · injection hok with h
        subst h
        simp only [NoteImports.log_new, prepare_for_update_id,
          munge_media_id]
  · simp only [processNote, hguid] at hok
    split at hok <;>
    · simp only [add_note] at hok
      split at hok
      · exact absurd hok (by simp)
      · injection hok with h
        subst h
        exact ⟨_, rfl, by simp only [prepare_for_update_id,
          munge_media_id]⟩

/-- Witness: new_note_id_uniquified at a concrete colliding insert
(identifier 1 bumped to 1000). -/
theorem new_note_id_uniquified_witness :
    List.lookup noteColl.guid ctxA.target_guids = none ∧
    noteColl.id ∈ ctxA.target_ids ∧
    ∃ ctx', processNote capsA ctxA noteColl = Except.ok ctx' ∧
      uniquifySpec ctxA ctx' noteColl :=
  ⟨by decide, by decide, _, rfl,
    new_note_id_uniquified capsA ctxA noteColl _ (by decide) (by decide) rfl⟩

/-- C6: for every incoming notetype whose identifier exists in the
target but whose structural fingerprint differs, the notetype is
re-created under a freshly allocated identifier, the Identity Remapping
Table records the old-to-new pair, and every subsequently imported new
note referencing the old identifier is stored under the new one. -/
theorem notetype_remapped (caps : Caps) (ctx : NoteContext)
    (nt existing : Notetype)
    (hfound : getNotetype ctx.target_col nt.id = some existing)
    (hdrift : schema_hash caps nt ≠ schema_hash caps existing) :
    remapSpec caps ctx nt existing := by
  have hmerge : merge_or_remap_notetype caps ctx nt existing =
      add_notetype_with_remapped_id ctx nt := by
    unfold merge_or_remap_notetype
    rw [if_neg hdrift]
  have hfresh := freshNotetypeId_not_mem ctx.target_col
  have hntmem : nt.id ∈ ctx.target_col.notetypes.map Notetype.id := by
    have hmem := List.mem_of_find?_eq_some hfound
    have hpred := List.find?_some hfound
    have : existing.id = nt.id := by simpa using hpred
    exact this ▸ List.mem_map_of_mem Notetype.id hmem
  unfold remapSpec
  rw [hmerge]
  refine ⟨?_, hfresh, ?_, ⟨_, rfl, rfl, rfl, rfl⟩, ?_⟩
  · simp [add_notetype_with_remapped_id, List.lookup]
  · intro h
    exact hfresh (h ▸ hntmem)
  · intro note ctx'' hg hnt hok
    simp only [processNote, hg] at hok
    rw [hnt] at hok
    have hlook : List.lookup nt.id
        (add_notetype_with_remapped_id ctx nt).remapped_notetypes =
        some (freshNotetypeId ctx.target_col) := by
      simp [add_notetype_with_remapped_id, List.lookup]
    rw [hlook] at hok
    simp only [add_note] at hok
    split at hok
    · exact absurd hok (by simp)
    · injection hok with h
      subst h
      exact ⟨_, rfl, by simp only [prepare_for_update_notetype_id,
        munge_media_notetype_id]⟩

/-- Witness: notetype_remapped at a concrete diverged notetype (shared
identifier 5, differing schema streams). -/
theorem notetype_remapped_witness : remapSpec capsA ctxA ntDiverged ntBasic :=
  notetype_remapped capsA ctxA ntDiverged ntBasic (by decide) (by decide)

/-- C7: every note that is inserted or updated passes through
media-reference rewriting, tag canonicalization, and (when enabled)
field normalization before being persisted; tag canonicalization is
applied on the update path as well as the insert path. -/
theorem write_paths_apply_pipeline (caps : Caps) (ctx : NoteContext)
    (nA : Note) (ctxIns : NoteContext) (nU : Note) (tid : Int)
    (ctxUpd : NoteContext)
    (hA : add_note caps ctx nA = Except.ok ctxIns)
    (hU : update_note caps ctx nU tid = Except.ok ctxUpd) :
    (∃ stored, ctxIns.target_col.notes = ctx.target_col.notes ++ [stored] ∧
      pipelineSpec caps ctx nA stored) ∧
    (∃ stored, getNote ctxUpd.target_col tid = some stored ∧
      pipelineSpec caps ctx nU stored) := by
  constructor
  · simp only [add_note] at hA
    split at hA
    · exact absurd hA (by simp)
    · injection hA with h
      subst h
      refine ⟨_, rfl, ?_, ?_, rfl⟩
      · simp only [prepare_for_update_tags, munge_media_tags]
      · simp only [prepare_for_update_fields, munge_media_fields]
  · simp only [update_note] at hU
    split at hU
    · exact absurd hU (by simp)
    · rename_i origNote heqnote
      split at hU
      · exact absurd hU (by simp)
      · rename_i ntFound heqnt
        injection hU with h
        subst h
        have hmid : (munge_media caps ctx.media_map
            { nU with id := tid }).id = tid := rfl
        have hpid : (update_note_inner_prepare caps ctx.usn
            ctx.normalize_notes (munge_media caps ctx.media_map
              { nU with id := tid })).id = tid := by
          simp only [update_note_inner_prepare_id, munge_media_id]
        refine ⟨update_note_inner_prepare caps ctx.usn ctx.normalize_notes
          (munge_media caps ctx.media_map { nU with id := tid }),
          ?_, ?_, ?_, ?_⟩
        · have hside : (getNote ctx.target_col
              (update_note_inner_prepare caps ctx.usn ctx.normalize_notes
                (munge_media caps ctx.media_map
                  { nU with id := tid })).id).isSome := by
            rw [hpid]
            rw [hmid] at heqnote
            rw [heqnote]
            rfl
          have hs := getNote_storeNote ctx.target_col _ hside
          rw [hpid] at hs
          exact hs
        · simp only [update_note_inner_prepare_tags, munge_media_tags]
        · simp only [update_note_inner_prepare_fields,
            prepare_for_update_fields, munge_media_fields]
        · exact update_note_inner_prepare_usn caps ctx.usn ctx.normalize_notes _

/-- Witness: write_paths_apply_pipeline at a concrete insert and a
concrete update over the same session state. -/
theorem write_paths_apply_pipeline_witness :
    ∃ c1 c2, add_note capsA ctxA noteColl = Except.ok c1 ∧
      update_note capsA ctxA noteUpd 1 = Except.ok c2 ∧
      ((∃ stored, c1.target_col.notes = ctxA.target_col.notes ++ [stored] ∧
        pipelineSpec capsA ctxA noteColl stored) ∧
      (∃ stored, getNote c2.target_col 1 = some stored ∧
        pipelineSpec capsA ctxA noteUpd stored)) :=
  ⟨_, _, rfl, rfl,
    write_paths_apply_pipeline capsA ctxA noteColl _ noteUpd 1 _ rfl rfl⟩

/-- C8: an embedded media reference whose filename normalizes and whose
normalized name resolves through the Media Use Map to a different name
is rewritten to the resolved name; a reference with no map entry and
unchanged normalization is left unchanged; munge_media applies this to
every field of an imported note. -/
theorem media_refs_resolved (caps : Caps) (mm : List (String × String))
    (pre name post resolved : String) (c : FilenameCow)
    (pre2 name2 post2 : String)
    (h1 : caps.safe_normalized_file_name name = some c)
    (h2 : List.lookup (cowName name c) mm = some resolved)
    (h3 : resolved ≠ name)
    (h4 : caps.safe_normalized_file_name name2 = some FilenameCow.borrowed)
    (h5 : List.lookup name2 mm = none) :
    mediaRefSpec caps mm pre name post resolved ∧
    replaceSegs (mungeName caps mm) [MSeg.ref pre2 name2 post2] =
      [MSeg.ref pre2 name2 post2] ∧
    ∀ note, (munge_media caps mm note).fields =
      note.fields.map (replaceSegs (mungeName caps mm)) := by
  have hm1 : mungeName caps mm name = some resolved := by
    unfold mungeName
    simp only [h1, h2, h3, if_pos]
    simp [h3]
  have hm2 : mungeName caps mm name2 = none := by
    unfold mungeName
    simp only [h4, cowName, h5]
  refine ⟨⟨?_, ?_⟩, ?_, fun note => rfl⟩
  · simp [replaceSegs, hm1]
  · simp [replaceSegs, hm1, renderField, renderSeg, String.join]
  · simp [replaceSegs, hm2]

/-- Witness: media_refs_resolved on the img tag example, with the map
resolving foo.jpg to bar.jpg and leaving baz.jpg untouched. -/
theorem media_refs_resolved_witness :
    mediaRefSpec capsA [("foo.jpg", "bar.jpg")]
      "<img src=\x27" "foo.jpg" "\x27>" "bar.jpg" ∧
    replaceSegs (mungeName capsA [("foo.jpg", "bar.jpg")])
      [MSeg.ref "<img src=\x27" "baz.jpg" "\x27>"] =
      [MSeg.ref "<img src=\x27" "baz.jpg" "\x27>"] ∧
    ∀ note, (munge_media capsA [("foo.jpg", "bar.jpg")] note).fields =
      note.fields.map
        (replaceSegs (mungeName capsA [("foo.jpg", "bar.jpg")])) :=
  media_refs_resolved capsA [("foo.jpg", "bar.jpg")]
    "<img src=\x27" "foo.jpg" "\x27>" "bar.jpg" FilenameCow.borrowed
    "<img src=\x27" "baz.jpg" "\x27>"
    (by decide) (by decide) (by decide) (by decide) (by decide)

/-- C9: a note on the insert or update path whose (possibly remapped)
notetype identifier is absent from target storage makes the merge
session fail with a not-found error; no data-level outcome is recorded
and the batch aborts. -/
theorem notetype_missing_aborts (caps : Caps) (ctx : NoteContext)
    (nIns nUpd : Note) (existing : NoteMeta) (orig : Note)
    (h1 : List.lookup nIns.guid ctx.target_guids = none)
    (h2 : getNotetype ctx.target_col
      ((List.lookup nIns.notetype_id ctx.remapped_notetypes).getD
        nIns.notetype_id) = none)
    (h3 : List.lookup nUpd.guid ctx.target_guids = some existing)
    (h4 : existing.mtime < nUpd.mtime)
    (h5 : existing.notetype_id = nUpd.notetype_id)
    (h6 : List.lookup nUpd.notetype_id ctx.remapped_notetypes = none)
    (h7 : getNote ctx.target_col existing.id = some orig)
    (h8 : getNotetype ctx.target_col nUpd.notetype_id = none) :
    processNote caps ctx nIns = Except.error (ImportError.notetypeNotFound
      ((List.lookup nIns.notetype_id ctx.remapped_notetypes).getD
        nIns.notetype_id)) ∧
    processNote caps ctx nUpd = Except.error
      (ImportError.notetypeNotFound nUpd.notetype_id) ∧
    import_notes caps ctx [nIns] = Except.error
      (ImportError.notetypeNotFound
        ((List.lookup nIns.notetype_id ctx.remapped_notetypes).getD
          nIns.notetype_id)) := by
  have hins : ∀ ctx2 : NoteContext,
      ctx2.target_guids = ctx.target_guids →
      ctx2.remapped_notetypes = ctx.remapped_notetypes →
      ctx2.target_col = ctx.target_col →
      ctx2.media_map = ctx.media_map →
      processNote caps ctx2 nIns = Except.error
        (ImportError.notetypeNotFound
          ((List.lookup nIns.notetype_id ctx.remapped_notetypes).getD
            nIns.notetype_id)) := by
    intro ctx2 hg hr hc hm
    simp only [processNote, hg, hr, hc, hm, h1]
    cases hrem : List.lookup nIns.notetype_id ctx.remapped_notetypes with
    | some r =>
      rw [hrem] at h2
      rw [Option.getD_some] at h2
      simp only [add_note, munge_media_notetype_id]
      have h2c : getNotetype ctx2.target_col r = none := by
        rw [hc]; exact h2
      rw [h2c]
      rfl
    | none =>
      rw [hrem] at h2
      rw [Option.getD_none] at h2
      simp only [add_note, munge_media_notetype_id]
      have h2c : getNotetype ctx2.target_col nIns.notetype_id = none := by
        rw [hc]; exact h2
      rw [h2c]
      rfl
  refine ⟨hins ctx rfl rfl rfl rfl, ?_, ?_⟩
  · have hdiv : ¬ (existing.notetype_id ≠ nUpd.notetype_id ∨
        (List.lookup nUpd.notetype_id ctx.remapped_notetypes).isSome =
          true) := by
      rw [h6]
      simp [h5]
    simp only [processNote, h3]
    rw [if_pos h4, if_neg hdiv]
    simp only [update_note]
    have hmid : (munge_media caps ctx.media_map
        { nUpd with id := existing.id }).id = existing.id := rfl
    have hmnt : (munge_media caps ctx.media_map
        { nUpd with id := existing.id }).notetype_id = nUpd.notetype_id :=
      rfl
    rw [hmid, h7, hmnt, h8]
  · simp only [import_notes, List.foldlM]
    rw [hins { ctx with imports := { ctx.imports with
      log := { ctx.imports.log with found_notes := [nIns].length } } }
      rfl rfl rfl rfl]
    rfl

/-- Witness: notetype_missing_aborts over a target whose stored note
references notetype 7 while storage holds no notetypes at all. -/
theorem notetype_missing_aborts_witness :
    processNote capsA ctxMissing noteInsMissing = Except.error
      (ImportError.notetypeNotFound
        ((List.lookup noteInsMissing.notetype_id
          ctxMissing.remapped_notetypes).getD
            noteInsMissing.notetype_id)) ∧
    processNote capsA ctxMissing noteUpdMissing = Except.error
      (ImportError.notetypeNotFound noteUpdMissing.notetype_id) ∧
    import_notes capsA ctxMissing [noteInsMissing] = Except.error
      (ImportError.notetypeNotFound
        ((List.lookup noteInsMissing.notetype_id
          ctxMissing.remapped_notetypes).getD
            noteInsMissing.notetype_id)) :=
  notetype_missing_aborts capsA ctxMissing noteInsMissing noteUpdMissing
    { id := 1, mtime := 0, notetype_id := 7 }
    (mkNote 1 "g" 7 0 [[MSeg.txt "old"]])
    (by decide) (by decide) (by decide) (by decide) (by decide) (by decide)
    (by decide) (by decide)

/-- C10: the schema fingerprint is not injective on structure: two
notetypes with different ordered field-name lists absorb the same byte
stream (the bare concatenation carries no separators or length
prefixes), so their schema_hash values agree for every digest
function, and fingerprint equality does not imply equal name lists. -/
theorem schema_hash_not_injective :
    ∃ nt1 nt2 : Notetype,
      nt1.fields.map NoteField.name ≠ nt2.fields.map NoteField.name ∧
      schemaStream nt1 = schemaStream nt2 ∧
      ∀ caps : Caps, schema_hash caps nt1 = schema_hash caps nt2 := by
  refine ⟨⟨1, "t", 0, 0, [⟨"ab"⟩], []⟩,
    ⟨2, "t", 0, 0, [⟨"a"⟩, ⟨"b"⟩], []⟩, by decide, ?_, ?_⟩
  · decide
  · intro caps
    unfold schema_hash
    congr 1
